import Mathlib

/-!
# Verification of the autokeypress core

A shallow embedding of the `ybootin/autokeypress` repository: the key-input
resolution logic (`parseMacInput` in `main_darwin.go`, `parseKeyInput` in the
Windows source file) and the concurrent `Runner` (identical in both files),
together with the UI-layer start logic that filters entries and builds tasks.

Go strings are modelled as lists of runes (`List Char`); operations that are
byte-level in Go (`len(key)` on a string, `key[0]`) are modelled through the
UTF-8 byte length `goByteLen`.
-/

/-- A Go string, viewed as its sequence of runes (Unicode code points). -/
abbrev GoStr := List Char

/-- Go `unicode.IsSpace`: membership in the Unicode White_Space set
('\t', '\n', '\v', '\f', '\r', ' ', U+0085, U+00A0, U+1680, U+2000–U+200A,
U+2028, U+2029, U+202F, U+205F, U+3000). -/
def goIsSpace (c : Char) : Bool :=
  c = '\t' || c = '\n' || c.toNat = 11 || c.toNat = 12 || c = '\r' || c = ' ' ||
  c.toNat = 0x85 || c.toNat = 0xA0 || c.toNat = 0x1680 ||
  (0x2000 ≤ c.toNat && c.toNat ≤ 0x200A) || c.toNat = 0x2028 || c.toNat = 0x2029 ||
  c.toNat = 0x202F || c.toNat = 0x205F || c.toNat = 0x3000

/-- Go `strings.TrimSpace`: drop leading and trailing White_Space runes. -/
def goTrimSpace (s : GoStr) : GoStr :=
  ((s.dropWhile goIsSpace).reverse.dropWhile goIsSpace).reverse

/-- Model of Go `unicode.ToUpper` on one rune: exact on the ASCII range (the
range every named-key and letter/digit table entry lives in); above ASCII the
Unicode case tables are abstracted as the identity. Like Go's function it maps
one rune to one rune, which is the only fact the general theorems rely on. -/
def goToUpperChar (c : Char) : Char :=
  if 'a' ≤ c ∧ c ≤ 'z' then Char.ofNat (c.toNat - 32) else c

/-- Go `strings.ToUpper`: uppercase every rune. -/
def goToUpper (s : GoStr) : GoStr :=
  s.map goToUpperChar

/-- Go `len(s)` on a string: its UTF-8 byte length. -/
def goByteLen (s : GoStr) : Nat :=
  (s.map Char.utf8Size).sum

/-- The errors the key resolvers produce (`fmt.Errorf` in the source):
`"empty key"`, and `"unsupported key: %s"` carrying the offending string. -/
inductive KeyErr where
  | emptyKey : KeyErr
  | unsupportedKey (input : GoStr) : KeyErr
deriving DecidableEq

/-- `KeyTask` from `main_darwin.go` (without the interval, which the UI layer
adds): a macOS CG key code, or a rune to inject as Unicode. Zero values of the
Go struct fields are the defaults. -/
structure KeyTask where
  keyCode : Nat := 0
  unicodeRune : Char := Char.ofNat 0
  useUnicode : Bool := false
deriving DecidableEq

/-- `macLetterKeyCode` from `main_darwin.go`. -/
def macLetterKeyCode (ch : Char) : Option Nat :=
  match ch with
  | 'A' => some 0
  | 'B' => some 11
  | 'C' => some 8
  | 'D' => some 2
  | 'E' => some 14
  | 'F' => some 3
  | 'G' => some 5
  | 'H' => some 4
  | 'I' => some 34
  | 'J' => some 38
  | 'K' => some 40
  | 'L' => some 37
  | 'M' => some 46
  | 'N' => some 45
  | 'O' => some 31
  | 'P' => some 35
  | 'Q' => some 12
  | 'R' => some 15
  | 'S' => some 1
  | 'T' => some 17
  | 'U' => some 32
  | 'V' => some 9
  | 'W' => some 13
  | 'X' => some 7
  | 'Y' => some 16
  | 'Z' => some 6
  | _ => none

/-- `macDigitKeyCode` from `main_darwin.go`. -/
def macDigitKeyCode (ch : Char) : Option Nat :=
  match ch with
  | '0' => some 29
  | '1' => some 18
  | '2' => some 19
  | '3' => some 20
  | '4' => some 21
  | '5' => some 23
  | '6' => some 22
  | '7' => some 26
  | '8' => some 28
  | '9' => some 25
  | _ => none

/-- `macFunctionKeyCode` from `main_darwin.go`; its error carries the
(uppercased) key, as in the source. -/
def macFunctionKeyCode (key : GoStr) : Except KeyErr Nat :=
  if key = "F1".data then .ok 122
  else if key = "F2".data then .ok 120
  else if key = "F3".data then .ok 99
  else if key = "F4".data then .ok 118
  else if key = "F5".data then .ok 96
  else if key = "F6".data then .ok 97
  else if key = "F7".data then .ok 98
  else if key = "F8".data then .ok 100
  else if key = "F9".data then .ok 101
  else if key = "F10".data then .ok 109
  else if key = "F11".data then .ok 103
  else if key = "F12".data then .ok 111
  else .error (.unsupportedKey key)

/-- The list of F-key names gathered in one `case` of the `switch` in
`parseMacInput`. -/
def fKeyNames : List GoStr :=
  ["F1".data, "F2".data, "F3".data, "F4".data, "F5".data, "F6".data,
   "F7".data, "F8".data, "F9".data, "F10".data, "F11".data, "F12".data]

/-- The final `switch key` of `parseMacInput`: the named-key table. `key` is
the uppercased trimmed input, `input` the original string (used in the error). -/
def macNamedKey (key input : GoStr) : Except KeyErr KeyTask :=
  if key = "SPACE".data then .ok { keyCode := 49 }
  else if key = "ENTER".data then .ok { keyCode := 36 }
  else if key = "ESC".data ∨ key = "ESCAPE".data then .ok { keyCode := 53 }
  else if key = "TAB".data then .ok { keyCode := 48 }
  else if key = "UP".data then .ok { keyCode := 126 }
  else if key = "DOWN".data then .ok { keyCode := 125 }
  else if key = "LEFT".data then .ok { keyCode := 123 }
  else if key = "RIGHT".data then .ok { keyCode := 124 }
  else if key ∈ fKeyNames then
    match macFunctionKeyCode key with
    | .ok code => .ok { keyCode := code }
    | .error e => .error e
  else .error (.unsupportedKey input)

/-- `parseMacInput` from `main_darwin.go`. The Go byte-level test
`len(key) == 1` is `goByteLen key = 1`; `key[0]` is the sole rune of `key`
in that case (a one-byte string holds exactly one one-byte rune). -/
def parseMacInput (input : GoStr) : Except KeyErr KeyTask :=
  let key := goToUpper (goTrimSpace input)
  if key = [] then .error .emptyKey
  else
    match goTrimSpace input with
    | [c] => .ok { unicodeRune := c, useUnicode := true }
    | _ =>
      if goByteLen key = 1 then
        let ch := key.headD (Char.ofNat 0)
        match macLetterKeyCode ch with
        | some code => .ok { keyCode := code }
        | none =>
          match macDigitKeyCode ch with
          | some code => .ok { keyCode := code }
          | none => macNamedKey key input
      else macNamedKey key input

/-- The `keybd_event.VK_*` constants named by the Windows source file. Their
numeric values live in the external `keybd_event` library, so they are
modelled as an enumeration of the constant names; distinctness of the
constructors mirrors the distinctness of the library constants. -/
inductive VK where
  | A | B | C | D | E | F | G | H | I | J | K | L | M
  | N | O | P | Q | R | S | T | U | V | W | X | Y | Z
  | D0 | D1 | D2 | D3 | D4 | D5 | D6 | D7 | D8 | D9
  | SPACE | ENTER | ESC | TAB | UP | DOWN | LEFT | RIGHT
  | F1 | F2 | F3 | F4 | F5 | F6 | F7 | F8 | F9 | F10 | F11 | F12
deriving DecidableEq

/-- `KeyTask` from the Windows source file (without the interval). The Go
field `KeyCode int` defaults to `0`; `none` stands for that zero value, and
`some v` for the library constant `v`. -/
structure WinKeyTask where
  keyCode : Option VK := none
  unicodeRune : Char := Char.ofNat 0
  useUnicode : Bool := false
deriving DecidableEq

/-- The `switch key[0]` of `parseKeyInput`: the inline letter/digit table of
the Windows source file (letters and digits in one switch). -/
def winLetterDigitKeyCode (ch : Char) : Option VK :=
  match ch with
  | 'A' => some .A
  | 'B' => some .B
  | 'C' => some .C
  | 'D' => some .D
  | 'E' => some .E
  | 'F' => some .F
  | 'G' => some .G
  | 'H' => some .H
  | 'I' => some .I
  | 'J' => some .J
  | 'K' => some .K
  | 'L' => some .L
  | 'M' => some .M
  | 'N' => some .N
  | 'O' => some .O
  | 'P' => some .P
  | 'Q' => some .Q
  | 'R' => some .R
  | 'S' => some .S
  | 'T' => some .T
  | 'U' => some .U
  | 'V' => some .V
  | 'W' => some .W
  | 'X' => some .X
  | 'Y' => some .Y
  | 'Z' => some .Z
  | '0' => some .D0
  | '1' => some .D1
  | '2' => some .D2
  | '3' => some .D3
  | '4' => some .D4
  | '5' => some .D5
  | '6' => some .D6
  | '7' => some .D7
  | '8' => some .D8
  | '9' => some .D9
  | _ => none

/-- The final `switch key` of `parseKeyInput`: the named-key table of the
Windows source file (F-keys are individual cases there). -/
def winNamedKey (key input : GoStr) : Except KeyErr WinKeyTask :=
  if key = "SPACE".data then .ok { keyCode := some .SPACE }
  else if key = "ENTER".data then .ok { keyCode := some .ENTER }
  else if key = "ESC".data ∨ key = "ESCAPE".data then .ok { keyCode := some .ESC }
  else if key = "TAB".data then .ok { keyCode := some .TAB }
  else if key = "UP".data then .ok { keyCode := some .UP }
  else if key = "DOWN".data then .ok { keyCode := some .DOWN }
  else if key = "LEFT".data then .ok { keyCode := some .LEFT }
  else if key = "RIGHT".data then .ok { keyCode := some .RIGHT }
  else if key = "F1".data then .ok { keyCode := some .F1 }
  else if key = "F2".data then .ok { keyCode := some .F2 }
  else if key = "F3".data then .ok { keyCode := some .F3 }
  else if key = "F4".data then .ok { keyCode := some .F4 }
  else if key = "F5".data then .ok { keyCode := some .F5 }
  else if key = "F6".data then .ok { keyCode := some .F6 }
  else if key = "F7".data then .ok { keyCode := some .F7 }
  else if key = "F8".data then .ok { keyCode := some .F8 }
  else if key = "F9".data then .ok { keyCode := some .F9 }
  else if key = "F10".data then .ok { keyCode := some .F10 }
  else if key = "F11".data then .ok { keyCode := some .F11 }
  else if key = "F12".data then .ok { keyCode := some .F12 }
  else .error (.unsupportedKey input)

/-- `parseKeyInput` from the Windows source file: same skeleton as
`parseMacInput`, with the platform tables above. -/
def parseKeyInput (input : GoStr) : Except KeyErr WinKeyTask :=
  let key := goToUpper (goTrimSpace input)
  if key = [] then .error .emptyKey
  else
    match goTrimSpace input with
    | [c] => .ok { unicodeRune := c, useUnicode := true }
    | _ =>
      if goByteLen key = 1 then
        match winLetterDigitKeyCode (key.headD (Char.ofNat 0)) with
        | some code => .ok { keyCode := some code }
        | none => winNamedKey key input
      else winNamedKey key input


/-- `KeyEntry` from both source files: a user-authored row. -/
structure KeyEntry where
  key : GoStr
  intervalMS : Int
  enabled : Bool
deriving DecidableEq

/-- A task as handed to `runner.Start` by the macOS start handler: the
resolved target plus the interval, kept in milliseconds
(`time.Duration(entry.IntervalMS) * time.Millisecond`). -/
structure MacTimedTask where
  task : KeyTask
  intervalMS : Int
deriving DecidableEq

/-- Same for the Windows start handler. -/
structure WinTimedTask where
  task : WinKeyTask
  intervalMS : Int
deriving DecidableEq

/-- The `continue` condition of the start handler loop in `main_darwin.go`:
`!entry.Enabled || entry.IntervalMS <= 0 || strings.TrimSpace(entry.Key) == ""`. -/
def macSkipEntry (e : KeyEntry) : Bool :=
  !e.enabled || decide (e.intervalMS ≤ 0) || decide (goTrimSpace e.key = [])

/-- The filter of `KeyTableModel.EnabledEntries` in the Windows source file:
`entry.Enabled && entry.IntervalMS > 0 && strings.TrimSpace(entry.Key) != ""`. -/
def winKeepEntry (e : KeyEntry) : Bool :=
  e.enabled && decide (0 < e.intervalMS) && decide (goTrimSpace e.key ≠ [])

/-- The task-building loop of the macOS start handler: skip filtered
entries, collect per-entry resolution errors, build timed tasks from the
rest, preserving entry order. -/
def buildMacTasks : List KeyEntry → List MacTimedTask × List KeyErr
  | [] => ([], [])
  | e :: rest =>
    if macSkipEntry e then buildMacTasks rest
    else
      match parseMacInput e.key with
      | .error err =>
        let p := buildMacTasks rest
        (p.1, err :: p.2)
      | .ok t =>
        let p := buildMacTasks rest
        ({ task := t, intervalMS := e.intervalMS } :: p.1, p.2)

/-- The task-building loop of the Windows start handler, which runs over the
already-filtered `EnabledEntries()` list. -/
def winBuildTasks : List KeyEntry → List WinTimedTask × List KeyErr
  | [] => ([], [])
  | e :: rest =>
    match parseKeyInput e.key with
    | .error err =>
      let p := winBuildTasks rest
      (p.1, err :: p.2)
    | .ok t =>
      let p := winBuildTasks rest
      ({ task := t, intervalMS := e.intervalMS } :: p.1, p.2)

/-- The macOS Start button handler as a function of the runner's running
flag and the entry list: first component is `some tasks` exactly when
`runner.Start(tasks)` is invoked, the second the collected error list
reported to the user. -/
def macStartClicked (running : Bool) (entries : List KeyEntry) :
    Option (List MacTimedTask) × List KeyErr :=
  if running then (none, [])
  else
    let p := buildMacTasks entries
    if p.1 = [] then (none, p.2) else (some p.1, p.2)

/-- The Windows Start button handler: filters through `EnabledEntries`,
returns early when no entry survives the filter, otherwise builds tasks and
starts the runner exactly when at least one task resolved. -/
def winStartClicked (running : Bool) (items : List KeyEntry) :
    Option (List WinTimedTask) × List KeyErr :=
  if running then (none, [])
  else
    let entries := items.filter winKeepEntry
    if entries = [] then (none, [])
    else
      let p := winBuildTasks entries
      if p.1 = [] then (none, p.2) else (some p.1, p.2)

/-- The observable state of a `Runner` (the type is identical in both source
files) together with the executor goroutines it has launched, for traces in
which `Start`, `Stop` and `IsRunning` are invoked sequentially from the UI
thread — as the button handlers do — while executors run concurrently.
`τ` is the task payload an executor carries.

* `running` — the mutex-protected flag read by `IsRunning`.
* `chanOpen` — `stopCh` has been allocated and not yet closed.
* `live` — tasks of executors whose stop channel is still open.
* `stale` — tasks of executors whose stop channel has been closed but whose
  goroutine has not yet returned (`wg.Done` still pending).
* `stopping` — the UI thread is inside `Stop` between `close(stopCh)` and
  the return of `wg.Wait()`.
* `log` — every injection performed so far, in order. -/
structure RunnerState (τ : Type) where
  running : Bool
  chanOpen : Bool
  live : List τ
  stale : List τ
  stopping : Bool
  log : List τ
deriving DecidableEq

/-- The idle zero-value `Runner{}` both `main` functions create: flag down,
no channel, no goroutines. -/
def RunnerState.init (τ : Type) : RunnerState τ :=
  { running := false, chanOpen := false, live := [], stale := [],
    stopping := false, log := [] }

/-- `IsRunning`: the mutex-protected snapshot read of the flag. -/
def RunnerState.isRunning (s : RunnerState τ) : Bool :=
  s.running

/-- Labels for the atomic events of the runner system. -/
inductive REvent (τ : Type) where
  | start (tasks : List τ)
  | stopNoop
  | stopSignal
  | stopReturn
  | inject (t : τ)
  | exitOne (t : τ)
deriving DecidableEq

/-- One atomic event of the runner system, from the source of `Start`,
`Stop` and `runTask` (identical in both files).

* `startRunning`/`startIdle` — `Start`: return under the guard, or set the
  flag, allocate a fresh `stopCh` and launch one goroutine per task.
* `stopIdle` — `Stop` on an idle runner: return under the guard.
* `stopSignal` — `Stop` on a running runner: `close(stopCh)` and clear the
  flag inside the mutex; every live executor's channel is now closed.
* `stopReturn` — `wg.Wait()` returns, which requires every executor to have
  exited; `Stop` returns to its caller.
* `injectLive` — a live executor's ticker fires and it injects.
* `injectStale` — a stale executor injects: after `close(stopCh)` both
  `select` cases can be ready and Go chooses uniformly, so a tick may still
  be taken before the executor observes cancellation.
* `exitClosed` — a stale executor's `select` takes the closed stop channel:
  the `return` runs `wg.Done` and performs nothing else.
* `exitFailed` — the Windows `runTask` returns early when
  `keybd_event.NewKeyBonding` fails, before any tick. -/
inductive RStep : RunnerState τ → REvent τ → RunnerState τ → Prop where
  | startRunning (s : RunnerState τ) (ts : List τ)
      (hrun : s.running = true) (hui : s.stopping = false) :
      RStep s (.start ts) s
  | startIdle (s : RunnerState τ) (ts : List τ)
      (hrun : s.running = false) (hui : s.stopping = false) :
      RStep s (.start ts)
        { s with running := true, chanOpen := true, live := s.live ++ ts }
  | stopIdle (s : RunnerState τ)
      (hrun : s.running = false) (hui : s.stopping = false) :
      RStep s .stopNoop s
  | stopSignal (s : RunnerState τ)
      (hrun : s.running = true) (hui : s.stopping = false) :
      RStep s .stopSignal
        { s with running := false, chanOpen := false,
                 live := [], stale := s.stale ++ s.live, stopping := true }
  | stopReturn (s : RunnerState τ)
      (hui : s.stopping = true) (hdone : s.stale = []) :
      RStep s .stopReturn { s with stopping := false }
  | injectLive (s : RunnerState τ) (t : τ) (hmem : t ∈ s.live) :
      RStep s (.inject t) { s with log := s.log ++ [t] }
  | injectStale (s : RunnerState τ) (t : τ) (hmem : t ∈ s.stale) :
      RStep s (.inject t) { s with log := s.log ++ [t] }
  | exitClosed (s : RunnerState τ) (t : τ) (l₁ l₂ : List τ)
      (hsplit : s.stale = l₁ ++ t :: l₂) :
      RStep s (.exitOne t) { s with stale := l₁ ++ l₂ }
  | exitFailed (s : RunnerState τ) (t : τ) (l₁ l₂ : List τ)
      (hsplit : s.live = l₁ ++ t :: l₂) :
      RStep s (.exitOne t) { s with live := l₁ ++ l₂ }

/-- States reachable from the idle zero-value runner. -/
inductive RReach : RunnerState τ → Prop where
  | init : RReach (RunnerState.init τ)
  | step (s s' : RunnerState τ) (e : REvent τ)
      (h : RReach s) (hs : RStep s e s') : RReach s'

/-- A finite sequence of events. -/
inductive RSteps : RunnerState τ → List (REvent τ) → RunnerState τ → Prop where
  | refl (s : RunnerState τ) : RSteps s [] s
  | cons (s s' s'' : RunnerState τ) (e : REvent τ) (es : List (REvent τ))
      (h1 : RStep s e s') (h2 : RSteps s' es s'') : RSteps s (e :: es) s''

/-- Events of a single executor, as seen from its task: a key injection, or
observing cancellation (the `select` taking the closed stop channel). -/
inductive ExecEvent where
  | inject
  | observeStop
deriving DecidableEq

/-- The event histories `runTask`'s loop can have produced, mirroring its
body: while the goroutine is live (`exited = false`) each iteration's
`select` either takes the ticker case and injects, or takes the (closed)
stop-channel case, whose body is a bare `return` — appending `observeStop`
and ending the history. `initFail` is the Windows early return when
`keybd_event.NewKeyBonding` fails, before any loop iteration. -/
inductive ExecHist : List ExecEvent → Bool → Prop where
  | start : ExecHist [] false
  | initFail : ExecHist [] true
  | tick (tr : List ExecEvent) (h : ExecHist tr false) :
      ExecHist (tr ++ [.inject]) false
  | cancel (tr : List ExecEvent) (h : ExecHist tr false) :
      ExecHist (tr ++ [.observeStop]) true

/-- The named-key table as the spec states it (rule 3 of §4.1: `SPACE,
ENTER, ESC|ESCAPE, TAB, UP, DOWN, LEFT, RIGHT, F1..F12`), read as a map from
an uppercased name to the fixed macOS CG key code. Used to compare the
spec's table with `macNamedKey` as embedded from the source. -/
def specMacNamedCode (key : GoStr) : Option Nat :=
  if key = "SPACE".data then some 49
  else if key = "ENTER".data then some 36
  else if key = "ESC".data then some 53
  else if key = "ESCAPE".data then some 53
  else if key = "TAB".data then some 48
  else if key = "UP".data then some 126
  else if key = "DOWN".data then some 125
  else if key = "LEFT".data then some 123
  else if key = "RIGHT".data then some 124
  else if key = "F1".data then some 122
  else if key = "F2".data then some 120
  else if key = "F3".data then some 99
  else if key = "F4".data then some 118
  else if key = "F5".data then some 96
  else if key = "F6".data then some 97
  else if key = "F7".data then some 98
  else if key = "F8".data then some 100
  else if key = "F9".data then some 101
  else if key = "F10".data then some 109
  else if key = "F11".data then some 103
  else if key = "F12".data then some 111
  else none

/-- The spec's named-key table for the Windows build, mapping an uppercased
name to the `keybd_event` constant. -/
def specWinNamedCode (key : GoStr) : Option VK :=
  if key = "SPACE".data then some .SPACE
  else if key = "ENTER".data then some .ENTER
  else if key = "ESC".data then some .ESC
  else if key = "ESCAPE".data then some .ESC
  else if key = "TAB".data then some .TAB
  else if key = "UP".data then some .UP
  else if key = "DOWN".data then some .DOWN
  else if key = "LEFT".data then some .LEFT
  else if key = "RIGHT".data then some .RIGHT
  else if key = "F1".data then some .F1
  else if key = "F2".data then some .F2
  else if key = "F3".data then some .F3
  else if key = "F4".data then some .F4
  else if key = "F5".data then some .F5
  else if key = "F6".data then some .F6
  else if key = "F7".data then some .F7
  else if key = "F8".data then some .F8
  else if key = "F9".data then some .F9
  else if key = "F10".data then some .F10
  else if key = "F11".data then some .F11
  else if key = "F12".data then some .F12
  else none

/-- The macOS key codes reachable through `macLetterKeyCode` and
`macDigitKeyCode`: the letter/digit platform code table. -/
def macLetterDigitCodes : List Nat :=
  [0, 11, 8, 2, 14, 3, 5, 4, 34, 38, 40, 37, 46, 45, 31, 35, 12, 15, 1, 17,
   32, 9, 13, 7, 16, 6, 29, 18, 19, 20, 21, 23, 22, 26, 28, 25]

/-- Whether a `keybd_event` constant is one of the letter/digit constants
reachable through the `switch key[0]` table of `parseKeyInput`. -/
def vkIsLetterOrDigit : VK → Bool
  | .A | .B | .C | .D | .E | .F | .G | .H | .I | .J | .K | .L | .M
  | .N | .O | .P | .Q | .R | .S | .T | .U | .V | .W | .X | .Y | .Z
  | .D0 | .D1 | .D2 | .D3 | .D4 | .D5 | .D6 | .D7 | .D8 | .D9 => true
  | _ => false

lemma goByteLen_ge_length (s : GoStr) : s.length ≤ goByteLen s := by
  induction s with
  | nil => simp [goByteLen]
  | cons c cs ih =>
    have h1 : 0 < c.utf8Size := Char.utf8Size_pos c
    simp only [goByteLen, List.map_cons, List.sum_cons, List.length_cons] at *
    omega

lemma parseMacInput_empty (input : GoStr) (h : goTrimSpace input = []) :
    parseMacInput input = .error .emptyKey := by
  simp [parseMacInput, h, goToUpper]

lemma parseMacInput_single (input : GoStr) (c : Char)
    (h : goTrimSpace input = [c]) :
    parseMacInput input = .ok { unicodeRune := c, useUnicode := true } := by
  simp [parseMacInput, h, goToUpper]

lemma parseMacInput_eq_named (input : GoStr)
    (h : 2 ≤ (goTrimSpace input).length) :
    parseMacInput input = macNamedKey (goToUpper (goTrimSpace input)) input := by
  rcases htr : goTrimSpace input with _ | ⟨c, _ | ⟨d, rest⟩⟩
  · rw [htr] at h; simp at h
  · rw [htr] at h; simp at h
  · have hblen : goByteLen (goToUpperChar c :: goToUpperChar d ::
        List.map goToUpperChar rest) ≠ 1 := by
      intro hx
      have h1 := goByteLen_ge_length (goToUpperChar c :: goToUpperChar d ::
        List.map goToUpperChar rest)
      rw [hx] at h1
      simp at h1
    simp [parseMacInput, htr, goToUpper, hblen]

lemma parseKeyInput_empty (input : GoStr) (h : goTrimSpace input = []) :
    parseKeyInput input = .error .emptyKey := by
  simp [parseKeyInput, h, goToUpper]

lemma parseKeyInput_single (input : GoStr) (c : Char)
    (h : goTrimSpace input = [c]) :
    parseKeyInput input = .ok { unicodeRune := c, useUnicode := true } := by
  simp [parseKeyInput, h, goToUpper]

lemma parseKeyInput_eq_named (input : GoStr)
    (h : 2 ≤ (goTrimSpace input).length) :
    parseKeyInput input = winNamedKey (goToUpper (goTrimSpace input)) input := by
  rcases htr : goTrimSpace input with _ | ⟨c, _ | ⟨d, rest⟩⟩
  · rw [htr] at h; simp at h
  · rw [htr] at h; simp at h
  · have hblen : goByteLen (goToUpperChar c :: goToUpperChar d ::
        List.map goToUpperChar rest) ≠ 1 := by
      intro hx
      have h1 := goByteLen_ge_length (goToUpperChar c :: goToUpperChar d ::
        List.map goToUpperChar rest)
      rw [hx] at h1
      simp at h1
    simp [parseKeyInput, htr, goToUpper, hblen]

lemma macNamedKey_eq_spec (key input : GoStr) :
    macNamedKey key input =
      match specMacNamedCode key with
      | some code => .ok { keyCode := code }
      | none => .error (.unsupportedKey input) := by
  by_cases h1 : key = "SPACE".data
  · subst h1; rfl
  by_cases h2 : key = "ENTER".data
  · subst h2; rfl
  by_cases h3 : key = "ESC".data
  · subst h3; rfl
  by_cases h4 : key = "ESCAPE".data
  · subst h4; rfl
  by_cases h5 : key = "TAB".data
  · subst h5; rfl
  by_cases h6 : key = "UP".data
  · subst h6; rfl
  by_cases h7 : key = "DOWN".data
  · subst h7; rfl
  by_cases h8 : key = "LEFT".data
  · subst h8; rfl
  by_cases h9 : key = "RIGHT".data
  · subst h9; rfl
  by_cases f1 : key = "F1".data
  · subst f1; rfl
  by_cases f2 : key = "F2".data
  · subst f2; rfl
  by_cases f3 : key = "F3".data
  · subst f3; rfl
  by_cases f4 : key = "F4".data
  · subst f4; rfl
  by_cases f5 : key = "F5".data
  · subst f5; rfl
  by_cases f6 : key = "F6".data
  · subst f6; rfl
  by_cases f7 : key = "F7".data
  · subst f7; rfl
  by_cases f8 : key = "F8".data
  · subst f8; rfl
  by_cases f9 : key = "F9".data
  · subst f9; rfl
  by_cases f10 : key = "F10".data
  · subst f10; rfl
  by_cases f11 : key = "F11".data
  · subst f11; rfl
  by_cases f12 : key = "F12".data
  · subst f12; rfl
  have hesc : ¬(key = "ESC".data ∨ key = "ESCAPE".data) := not_or.mpr ⟨h3, h4⟩
  have hfk : key ∉ fKeyNames := by
    simp only [fKeyNames, List.mem_cons, List.not_mem_nil, or_false, not_or]
    exact ⟨f1, f2, f3, f4, f5, f6, f7, f8, f9, f10, f11, f12⟩
  unfold macNamedKey specMacNamedCode
  simp only [if_neg h1, if_neg h2, if_neg hesc, if_neg h3, if_neg h4,
    if_neg h5, if_neg h6, if_neg h7, if_neg h8, if_neg h9, if_neg hfk,
    if_neg f1, if_neg f2, if_neg f3, if_neg f4, if_neg f5, if_neg f6,
    if_neg f7, if_neg f8, if_neg f9, if_neg f10, if_neg f11, if_neg f12]

lemma winNamedKey_eq_spec (key input : GoStr) :
    winNamedKey key input =
      match specWinNamedCode key with
      | some code => .ok { keyCode := some code }
      | none => .error (.unsupportedKey input) := by
  by_cases h1 : key = "SPACE".data
  · subst h1; rfl
  by_cases h2 : key = "ENTER".data
  · subst h2; rfl
  by_cases h3 : key = "ESC".data
  · subst h3; rfl
  by_cases h4 : key = "ESCAPE".data
  · subst h4; rfl
  by_cases h5 : key = "TAB".data
  · subst h5; rfl
  by_cases h6 : key = "UP".data
  · subst h6; rfl
  by_cases h7 : key = "DOWN".data
  · subst h7; rfl
  by_cases h8 : key = "LEFT".data
  · subst h8; rfl
  by_cases h9 : key = "RIGHT".data
  · subst h9; rfl
  by_cases f1 : key = "F1".data
  · subst f1; rfl
  by_cases f2 : key = "F2".data
  · subst f2; rfl
  by_cases f3 : key = "F3".data
  · subst f3; rfl
  by_cases f4 : key = "F4".data
  · subst f4; rfl
  by_cases f5 : key = "F5".data
  · subst f5; rfl
  by_cases f6 : key = "F6".data
  · subst f6; rfl
  by_cases f7 : key = "F7".data
  · subst f7; rfl
  by_cases f8 : key = "F8".data
  · subst f8; rfl
  by_cases f9 : key = "F9".data
  · subst f9; rfl
  by_cases f10 : key = "F10".data
  · subst f10; rfl
  by_cases f11 : key = "F11".data
  · subst f11; rfl
  by_cases f12 : key = "F12".data
  · subst f12; rfl
  have hesc : ¬(key = "ESC".data ∨ key = "ESCAPE".data) := not_or.mpr ⟨h3, h4⟩
  unfold winNamedKey specWinNamedCode
  simp only [if_neg h1, if_neg h2, if_neg hesc, if_neg h3, if_neg h4,
    if_neg h5, if_neg h6, if_neg h7, if_neg h8, if_neg h9,
    if_neg f1, if_neg f2, if_neg f3, if_neg f4, if_neg f5, if_neg f6,
    if_neg f7, if_neg f8, if_neg f9, if_neg f10, if_neg f11, if_neg f12]

lemma parseMacInput_cases (input : GoStr) :
    (goTrimSpace input = [] ∧ parseMacInput input = .error .emptyKey) ∨
    (∃ c, goTrimSpace input = [c] ∧
      parseMacInput input = .ok { unicodeRune := c, useUnicode := true }) ∨
    (2 ≤ (goTrimSpace input).length ∧
      parseMacInput input = macNamedKey (goToUpper (goTrimSpace input)) input) := by
  rcases htr : goTrimSpace input with _ | ⟨c, _ | ⟨d, rest⟩⟩
  · exact Or.inl ⟨rfl, parseMacInput_empty input htr⟩
  · exact Or.inr (Or.inl ⟨c, rfl, parseMacInput_single input c htr⟩)
  · have hlen : 2 ≤ (goTrimSpace input).length := by
      rw [htr]; simp only [List.length_cons]; omega
    have hp := parseMacInput_eq_named input hlen
    rw [htr] at hp
    exact Or.inr (Or.inr ⟨by simp only [List.length_cons]; omega, hp⟩)

lemma parseKeyInput_cases (input : GoStr) :
    (goTrimSpace input = [] ∧ parseKeyInput input = .error .emptyKey) ∨
    (∃ c, goTrimSpace input = [c] ∧
      parseKeyInput input = .ok { unicodeRune := c, useUnicode := true }) ∨
    (2 ≤ (goTrimSpace input).length ∧
      parseKeyInput input = winNamedKey (goToUpper (goTrimSpace input)) input) := by
  rcases htr : goTrimSpace input with _ | ⟨c, _ | ⟨d, rest⟩⟩
  · exact Or.inl ⟨rfl, parseKeyInput_empty input htr⟩
  · exact Or.inr (Or.inl ⟨c, rfl, parseKeyInput_single input c htr⟩)
  · have hlen : 2 ≤ (goTrimSpace input).length := by
      rw [htr]; simp only [List.length_cons]; omega
    have hp := parseKeyInput_eq_named input hlen
    rw [htr] at hp
    exact Or.inr (Or.inr ⟨by simp only [List.length_cons]; omega, hp⟩)

lemma specMacNamedCode_not_letter_digit (key : GoStr) (c : Nat)
    (h : specMacNamedCode key = some c) : c ∉ macLetterDigitCodes := by
  unfold specMacNamedCode at h
  by_cases hk1 : key = "SPACE".data
  · rw [if_pos hk1] at h; injection h with h; subst h; decide
  rw [if_neg hk1] at h
  by_cases hk2 : key = "ENTER".data
  · rw [if_pos hk2] at h; injection h with h; subst h; decide
  rw [if_neg hk2] at h
  by_cases hk3 : key = "ESC".data
  · rw [if_pos hk3] at h; injection h with h; subst h; decide
  rw [if_neg hk3] at h
  by_cases hk4 : key = "ESCAPE".data
  · rw [if_pos hk4] at h; injection h with h; subst h; decide
  rw [if_neg hk4] at h
  by_cases hk5 : key = "TAB".data
  · rw [if_pos hk5] at h; injection h with h; subst h; decide
  rw [if_neg hk5] at h
  by_cases hk6 : key = "UP".data
  · rw [if_pos hk6] at h; injection h with h; subst h; decide
  rw [if_neg hk6] at h
  by_cases hk7 : key = "DOWN".data
  · rw [if_pos hk7] at h; injection h with h; subst h; decide
  rw [if_neg hk7] at h
  by_cases hk8 : key = "LEFT".data
  · rw [if_pos hk8] at h; injection h with h; subst h; decide
  rw [if_neg hk8] at h
  by_cases hk9 : key = "RIGHT".data
  · rw [if_pos hk9] at h; injection h with h; subst h; decide
  rw [if_neg hk9] at h
  by_cases hk10 : key = "F1".data
  · rw [if_pos hk10] at h; injection h with h; subst h; decide
  rw [if_neg hk10] at h
  by_cases hk11 : key = "F2".data
  · rw [if_pos hk11] at h; injection h with h; subst h; decide
  rw [if_neg hk11] at h
  by_cases hk12 : key = "F3".data
  · rw [if_pos hk12] at h; injection h with h; subst h; decide
  rw [if_neg hk12] at h
  by_cases hk13 : key = "F4".data
  · rw [if_pos hk13] at h; injection h with h; subst h; decide
  rw [if_neg hk13] at h
  by_cases hk14 : key = "F5".data
  · rw [if_pos hk14] at h; injection h with h; subst h; decide
  rw [if_neg hk14] at h
  by_cases hk15 : key = "F6".data
  · rw [if_pos hk15] at h; injection h with h; subst h; decide
  rw [if_neg hk15] at h
  by_cases hk16 : key = "F7".data
  · rw [if_pos hk16] at h; injection h with h; subst h; decide
  rw [if_neg hk16] at h
  by_cases hk17 : key = "F8".data
  · rw [if_pos hk17] at h; injection h with h; subst h; decide
  rw [if_neg hk17] at h
  by_cases hk18 : key = "F9".data
  · rw [if_pos hk18] at h; injection h with h; subst h; decide
  rw [if_neg hk18] at h
  by_cases hk19 : key = "F10".data
  · rw [if_pos hk19] at h; injection h with h; subst h; decide
  rw [if_neg hk19] at h
  by_cases hk20 : key = "F11".data
  · rw [if_pos hk20] at h; injection h with h; subst h; decide
  rw [if_neg hk20] at h
  by_cases hk21 : key = "F12".data
  · rw [if_pos hk21] at h; injection h with h; subst h; decide
  rw [if_neg hk21] at h
  exact Option.noConfusion h

lemma specWinNamedCode_not_letter_digit (key : GoStr) (c : VK)
    (h : specWinNamedCode key = some c) : vkIsLetterOrDigit c = false := by
  unfold specWinNamedCode at h
  by_cases hk1 : key = "SPACE".data
  · rw [if_pos hk1] at h; injection h with h; subst h; decide
  rw [if_neg hk1] at h
  by_cases hk2 : key = "ENTER".data
  · rw [if_pos hk2] at h; injection h with h; subst h; decide
  rw [if_neg hk2] at h
  by_cases hk3 : key = "ESC".data
  · rw [if_pos hk3] at h; injection h with h; subst h; decide
  rw [if_neg hk3] at h
  by_cases hk4 : key = "ESCAPE".data
  · rw [if_pos hk4] at h; injection h with h; subst h; decide
  rw [if_neg hk4] at h
  by_cases hk5 : key = "TAB".data
  · rw [if_pos hk5] at h; injection h with h; subst h; decide
  rw [if_neg hk5] at h
  by_cases hk6 : key = "UP".data
  · rw [if_pos hk6] at h; injection h with h; subst h; decide
  rw [if_neg hk6] at h
  by_cases hk7 : key = "DOWN".data
  · rw [if_pos hk7] at h; injection h with h; subst h; decide
  rw [if_neg hk7] at h
  by_cases hk8 : key = "LEFT".data
  · rw [if_pos hk8] at h; injection h with h; subst h; decide
  rw [if_neg hk8] at h
  by_cases hk9 : key = "RIGHT".data
  · rw [if_pos hk9] at h; injection h with h; subst h; decide
  rw [if_neg hk9] at h
  by_cases hk10 : key = "F1".data
  · rw [if_pos hk10] at h; injection h with h; subst h; decide
  rw [if_neg hk10] at h
  by_cases hk11 : key = "F2".data
  · rw [if_pos hk11] at h; injection h with h; subst h; decide
  rw [if_neg hk11] at h
  by_cases hk12 : key = "F3".data
  · rw [if_pos hk12] at h; injection h with h; subst h; decide
  rw [if_neg hk12] at h
  by_cases hk13 : key = "F4".data
  · rw [if_pos hk13] at h; injection h with h; subst h; decide
  rw [if_neg hk13] at h
  by_cases hk14 : key = "F5".data
  · rw [if_pos hk14] at h; injection h with h; subst h; decide
  rw [if_neg hk14] at h
  by_cases hk15 : key = "F6".data
  · rw [if_pos hk15] at h; injection h with h; subst h; decide
  rw [if_neg hk15] at h
  by_cases hk16 : key = "F7".data
  · rw [if_pos hk16] at h; injection h with h; subst h; decide
  rw [if_neg hk16] at h
  by_cases hk17 : key = "F8".data
  · rw [if_pos hk17] at h; injection h with h; subst h; decide
  rw [if_neg hk17] at h
  by_cases hk18 : key = "F9".data
  · rw [if_pos hk18] at h; injection h with h; subst h; decide
  rw [if_neg hk18] at h
  by_cases hk19 : key = "F10".data
  · rw [if_pos hk19] at h; injection h with h; subst h; decide
  rw [if_neg hk19] at h
  by_cases hk20 : key = "F11".data
  · rw [if_pos hk20] at h; injection h with h; subst h; decide
  rw [if_neg hk20] at h
  by_cases hk21 : key = "F12".data
  · rw [if_pos hk21] at h; injection h with h; subst h; decide
  rw [if_neg hk21] at h
  exact Option.noConfusion h

/-- C1: any input whose trimmed form is exactly one rune resolves, on both
platforms, to a Unicode-injection task carrying exactly that rune with its
original case preserved (`useUnicode = true`, the key-code field left at its
zero value), never a letter/digit platform key code — also when the rune is
a letter or digit. -/
theorem single_rune_is_unicode_injection (input : GoStr) (c : Char)
    (h : goTrimSpace input = [c]) :
    parseMacInput input =
      .ok { keyCode := 0, unicodeRune := c, useUnicode := true } ∧
    parseKeyInput input =
      .ok { keyCode := none, unicodeRune := c, useUnicode := true } :=
  ⟨parseMacInput_single input c h, parseKeyInput_single input c h⟩

/-- Witness for C1: the single letter input `" A "`. -/
theorem single_rune_is_unicode_injection_witness :
    goTrimSpace " A ".data = ['A'] ∧
    parseMacInput " A ".data =
      .ok { keyCode := 0, unicodeRune := 'A', useUnicode := true } ∧
    parseKeyInput " A ".data =
      .ok { keyCode := none, unicodeRune := 'A', useUnicode := true } :=
  ⟨by decide,
   (single_rune_is_unicode_injection " A ".data 'A' (by decide)).1,
   (single_rune_is_unicode_injection " A ".data 'A' (by decide)).2⟩

/-- C7: every multi-character input that matches a named key
case-insensitively after trimming resolves to the fixed platform key code
of that name, on both platforms, and resolution is deterministic (equal
inputs give equal outputs on every call). -/
theorem named_key_resolution (input : GoStr) (code : Nat) (vk : VK)
    (hlen : 2 ≤ (goTrimSpace input).length)
    (hmac : specMacNamedCode (goToUpper (goTrimSpace input)) = some code)
    (hwin : specWinNamedCode (goToUpper (goTrimSpace input)) = some vk) :
    parseMacInput input = .ok { keyCode := code } ∧
    parseKeyInput input = .ok { keyCode := some vk } ∧
    (∀ s : GoStr, s = input →
      parseMacInput s = parseMacInput input ∧
      parseKeyInput s = parseKeyInput input) := by
  refine ⟨?_, ?_, fun s hs => by rw [hs]; exact ⟨rfl, rfl⟩⟩
  · rw [parseMacInput_eq_named input hlen, macNamedKey_eq_spec, hmac]
  · rw [parseKeyInput_eq_named input hlen, winNamedKey_eq_spec, hwin]

/-- Witness for C7: the mixed-case padded input `" escape "`. -/
theorem named_key_resolution_witness :
    2 ≤ (goTrimSpace " escape ".data).length ∧
    parseMacInput " escape ".data = .ok { keyCode := 53 } ∧
    parseKeyInput " escape ".data = .ok { keyCode := some .ESC } :=
  ⟨by decide,
   (named_key_resolution " escape ".data 53 .ESC (by decide) (by decide)
     (by decide)).1,
   (named_key_resolution " escape ".data 53 .ESC (by decide) (by decide)
     (by decide)).2.1⟩

/-- C8: resolution fails exactly when the input trims to nothing
(empty/whitespace-only), or the trimmed input has at least two runes and its
uppercase form is not in the named-key table; in all other cases it
succeeds. Holds on both platforms. -/
theorem resolution_error_characterization (input : GoStr) :
    ((parseMacInput input).isOk = false ↔
      goTrimSpace input = [] ∨
        (2 ≤ (goTrimSpace input).length ∧
          specMacNamedCode (goToUpper (goTrimSpace input)) = none)) ∧
    ((parseKeyInput input).isOk = false ↔
      goTrimSpace input = [] ∨
        (2 ≤ (goTrimSpace input).length ∧
          specWinNamedCode (goToUpper (goTrimSpace input)) = none)) := by
  constructor
  · rcases parseMacInput_cases input with ⟨h0, hp⟩ | ⟨c, h1, hp⟩ | ⟨h2, hp⟩
    · simp [hp, h0, Except.isOk, Except.toBool]
    · simp [hp, h1, Except.isOk, Except.toBool]
    · have hne : goTrimSpace input ≠ [] := by
        intro hh; rw [hh] at h2; simp at h2
      rw [hp, macNamedKey_eq_spec]
      cases hsp : specMacNamedCode (goToUpper (goTrimSpace input)) with
      | some c => simp [hsp, Except.isOk, Except.toBool, hne]
      | none => simp [hsp, Except.isOk, Except.toBool, hne, h2]
  · rcases parseKeyInput_cases input with ⟨h0, hp⟩ | ⟨c, h1, hp⟩ | ⟨h2, hp⟩
    · simp [hp, h0, Except.isOk, Except.toBool]
    · simp [hp, h1, Except.isOk, Except.toBool]
    · have hne : goTrimSpace input ≠ [] := by
        intro hh; rw [hh] at h2; simp at h2
      rw [hp, winNamedKey_eq_spec]
      cases hsp : specWinNamedCode (goToUpper (goTrimSpace input)) with
      | some c => simp [hsp, Except.isOk, Except.toBool, hne]
      | none => simp [hsp, Except.isOk, Except.toBool, hne, h2]

/-- C10: for every input whatsoever, resolution never returns a letter or
digit platform key code. The first conjunct is the crux: no trimmed input of
two or more runes can uppercase to a one-byte string, so the
`len(key) == 1` letter/digit branch is unreachable; the remaining conjuncts
state the resulting output property on both platforms. -/
theorem letter_digit_tables_unreachable (input : GoStr) (t : KeyTask)
    (w : WinKeyTask) (v : VK) :
    (2 ≤ (goTrimSpace input).length →
      goByteLen (goToUpper (goTrimSpace input)) ≠ 1) ∧
    (parseMacInput input = .ok t → t.useUnicode = false →
      t.keyCode ∉ macLetterDigitCodes) ∧
    (parseKeyInput input = .ok w → w.keyCode = some v →
      vkIsLetterOrDigit v = false) := by
  refine ⟨?_, ?_, ?_⟩
  · intro hlen hx
    have h1 := goByteLen_ge_length (goToUpper (goTrimSpace input))
    rw [hx] at h1
    simp only [goToUpper, List.length_map] at h1
    omega
  · intro hok huse
    rcases parseMacInput_cases input with ⟨h0, hp⟩ | ⟨c, h1, hp⟩ | ⟨h2, hp⟩
    · rw [hp] at hok; simp at hok
    · rw [hp] at hok
      injection hok with hok
      subst hok
      simp at huse
    · rw [hp, macNamedKey_eq_spec] at hok
      cases hsp : specMacNamedCode (goToUpper (goTrimSpace input)) with
      | some c =>
        rw [hsp] at hok
        injection hok with hok
        subst hok
        exact specMacNamedCode_not_letter_digit _ c hsp
      | none => rw [hsp] at hok; simp at hok
  · intro hok hcode
    rcases parseKeyInput_cases input with ⟨h0, hp⟩ | ⟨c, h1, hp⟩ | ⟨h2, hp⟩
    · rw [hp] at hok; simp at hok
    · rw [hp] at hok
      injection hok with hok
      subst hok
      simp at hcode
    · rw [hp, winNamedKey_eq_spec] at hok
      cases hsp : specWinNamedCode (goToUpper (goTrimSpace input)) with
      | some vk =>
        rw [hsp] at hok
        injection hok with hok
        subst hok
        injection hcode with hcode
        subst hcode
        exact specWinNamedCode_not_letter_digit _ _ hsp
      | none => rw [hsp] at hok; simp at hok

/-- Witness for C10 at the concrete input `"up"`. -/
theorem letter_digit_tables_unreachable_witness :
    goByteLen (goToUpper (goTrimSpace "up".data)) ≠ 1 ∧
    (126 : Nat) ∉ macLetterDigitCodes ∧
    vkIsLetterOrDigit VK.UP = false :=
  ⟨(letter_digit_tables_unreachable "up".data
      ⟨126, Char.ofNat 0, false⟩ ⟨some .UP, Char.ofNat 0, false⟩ .UP).1
      (by decide),
   (letter_digit_tables_unreachable "up".data
      ⟨126, Char.ofNat 0, false⟩ ⟨some .UP, Char.ofNat 0, false⟩ .UP).2.1
      (by rfl) rfl,
   (letter_digit_tables_unreachable "up".data
      ⟨126, Char.ofNat 0, false⟩ ⟨some .UP, Char.ofNat 0, false⟩ .UP).2.2
      (by rfl) rfl⟩

/-- The state invariant maintained by every runner event: the running flag
tracks whether the current stop channel is open; while `Stop` is joining the
flag is already down; an idle flag means no executor with an open channel;
and outside a `Stop` join an idle runner has no executor left at all. -/
def RunnerInv (s : RunnerState τ) : Prop :=
  s.running = s.chanOpen ∧
  (s.stopping = true → s.running = false) ∧
  (s.running = false → s.live = []) ∧
  (s.running = false → s.stopping = false → s.stale = [])

lemma rstep_preserves_inv {s s' : RunnerState τ} {e : REvent τ}
    (hinv : RunnerInv s) (h : RStep s e s') : RunnerInv s' := by
  obtain ⟨i1, i2, i3, i4⟩ := hinv
  cases h with
  | startRunning _ hrun hui => exact ⟨i1, i2, i3, i4⟩
  | startIdle _ hrun hui =>
      refine ⟨rfl, ?_, ?_, ?_⟩ <;> intro h1 <;> simp_all
  | stopIdle => exact ⟨i1, i2, i3, i4⟩
  | stopSignal hrun hui =>
      refine ⟨rfl, fun _ => rfl, fun _ => rfl, ?_⟩
      intro _ h2
      simp at h2
  | stopReturn hui hdone =>
      have hr : s.running = false := i2 hui
      exact ⟨i1, fun _ => hr, fun _ => i3 hr, fun _ _ => hdone⟩
  | injectLive t hmem => exact ⟨i1, i2, i3, i4⟩
  | injectStale t hmem => exact ⟨i1, i2, i3, i4⟩
  | exitClosed t l₁ l₂ hsplit =>
      refine ⟨i1, i2, i3, ?_⟩
      intro h1 h2
      rw [i4 h1 h2] at hsplit
      simp at hsplit
  | exitFailed t l₁ l₂ hsplit =>
      refine ⟨i1, i2, ?_, i4⟩
      intro h1
      rw [i3 h1] at hsplit
      simp at hsplit

lemma rreach_inv (s : RunnerState τ) (h : RReach s) : RunnerInv s := by
  induction h with
  | init => exact ⟨rfl, fun _ => rfl, fun _ => rfl, fun _ _ => rfl⟩
  | step s s' e h hs ih => exact rstep_preserves_inv ih hs

/-- A fully stopped (or never started) runner: flag down, no `Stop` join in
progress, no executor of any kind alive. -/
def Quiet (s : RunnerState τ) : Prop :=
  s.running = false ∧ s.stopping = false ∧ s.live = [] ∧ s.stale = []

lemma quiet_step {s s' : RunnerState τ} {e : REvent τ} (hq : Quiet s)
    (h : RStep s e s') (hne : ∀ ts, e ≠ .start ts) : s' = s ∧ Quiet s' := by
  obtain ⟨q1, q2, q3, q4⟩ := hq
  cases h with
  | startRunning ts _ _ => exact absurd rfl (hne ts)
  | startIdle ts _ _ => exact absurd rfl (hne ts)
  | stopIdle => exact ⟨rfl, q1, q2, q3, q4⟩
  | stopSignal hrun _ => rw [q1] at hrun; exact nomatch hrun
  | stopReturn hui _ => rw [q2] at hui; exact nomatch hui
  | injectLive t hmem => rw [q3] at hmem; simp at hmem
  | injectStale t hmem => rw [q4] at hmem; simp at hmem
  | exitClosed t l₁ l₂ hsplit => rw [q4] at hsplit; simp at hsplit
  | exitFailed t l₁ l₂ hsplit => rw [q3] at hsplit; simp at hsplit

lemma quiet_steps {s s' : RunnerState τ} {es : List (REvent τ)}
    (h : RSteps s es s') : Quiet s → (∀ ts, REvent.start ts ∉ es) → s' = s := by
  induction h with
  | refl => intro _ _; rfl
  | cons s₁ s₂ s₃ e es' h1 h2 ih =>
      intro hq hne
      have hne1 : ∀ ts, e ≠ REvent.start ts := fun ts hc =>
        hne ts (by rw [← hc]; exact List.mem_cons_self _ _)
      obtain ⟨heq, hq2⟩ := quiet_step hq h1 hne1
      have hne2 : ∀ ts, REvent.start ts ∉ es' := fun ts hm =>
        hne ts (List.mem_cons_of_mem _ hm)
      rw [ih hq2 hne2, heq]

/-- C2 counterexample: starting the idle runner with an empty task list
reaches a state with `running = true` and the cancellation channel open
while no executor goroutine is alive — refuting "`running == true` iff at
least one task executor goroutine is alive and the channel is open". -/
theorem running_without_executors_counterexample :
    RReach ({ running := true, chanOpen := true, live := [], stale := [],
              stopping := false, log := [] } : RunnerState Nat) ∧
    ({ running := true, chanOpen := true, live := [], stale := [],
       stopping := false, log := [] } : RunnerState Nat).running = true ∧
    ({ running := true, chanOpen := true, live := [], stale := [],
       stopping := false, log := [] } : RunnerState Nat).live = [] ∧
    ({ running := true, chanOpen := true, live := [], stale := [],
       stopping := false, log := [] } : RunnerState Nat).stale = [] :=
  ⟨RReach.step _ _ _ RReach.init (RStep.startIdle _ [] rfl rfl),
   rfl, rfl, rfl⟩

/-- C2 (amended): in every reachable runner state, `running = true` iff the
cancellation channel is open; and the transition out of a run completes
(`wg.Wait` lets `Stop` return) only once every task executor has exited. -/
theorem running_iff_chan_open (s : RunnerState τ) (hr : RReach s) :
    (s.isRunning = true ↔ s.chanOpen = true) ∧
    (∀ s', RStep s .stopReturn s' → s.live = [] ∧ s.stale = []) := by
  have hinv := rreach_inv s hr
  constructor
  · simp only [RunnerState.isRunning]
    rw [hinv.1]
  · intro s' hstep
    cases hstep with
    | stopReturn hui hdone => exact ⟨hinv.2.2.1 (hinv.2.1 hui), hdone⟩

/-- Witness for C2's amended invariant at the initial state. -/
theorem running_iff_chan_open_witness :
    (RunnerState.init Nat).isRunning = true ↔
      (RunnerState.init Nat).chanOpen = true :=
  (running_iff_chan_open (RunnerState.init Nat) RReach.init).1

/-- C3: when `Stop` returns on a running runner (the `stopReturn` event),
every executor has already exited, `IsRunning` reads `false`, and no later
event sequence that contains no new `Start` adds any injection to the log. -/
theorem stop_return_no_further_injections (s s' : RunnerState τ)
    (hr : RReach s) (hstep : RStep s .stopReturn s') :
    s.live = [] ∧ s.stale = [] ∧ s'.isRunning = false ∧
    (∀ es s'', RSteps s' es s'' → (∀ ts, REvent.start ts ∉ es) →
      s''.log = s'.log) := by
  have hinv := rreach_inv s hr
  cases hstep with
  | stopReturn hui hdone =>
    have hrun : s.running = false := hinv.2.1 hui
    have hlive : s.live = [] := hinv.2.2.1 hrun
    refine ⟨hlive, hdone, hrun, ?_⟩
    intro es s'' hsteps hne
    have hq : Quiet { s with stopping := false } := ⟨hrun, rfl, hlive, hdone⟩
    rw [quiet_steps hsteps hq hne]

/-- Witness for C3: a concrete run of one task, stopped and joined. -/
theorem stop_return_no_further_injections_witness :
    (⟨false, false, [], [], true, []⟩ : RunnerState Nat).live = [] ∧
    (⟨false, false, [], [], true, []⟩ : RunnerState Nat).stale = [] ∧
    (⟨false, false, ([] : List Nat), [], false, []⟩ : RunnerState Nat).isRunning
      = false := by
  have h1 : RReach (⟨true, true, [0], [], false, []⟩ : RunnerState Nat) :=
    RReach.step _ _ _ RReach.init (RStep.startIdle _ [0] rfl rfl)
  have h2 : RReach (⟨false, false, [], [0], true, []⟩ : RunnerState Nat) :=
    RReach.step _ _ _ h1 (RStep.stopSignal _ rfl rfl)
  have h3 : RReach (⟨false, false, [], [], true, []⟩ : RunnerState Nat) :=
    RReach.step _ _ _ h2 (RStep.exitClosed _ 0 [] [] rfl)
  have h4 := stop_return_no_further_injections _ _ h3 (RStep.stopReturn _ rfl rfl)
  exact ⟨h4.1, h4.2.1, h4.2.2.1⟩

/-- C5: calling `Start` again on a running runner has no effect at all: the
state — flag, channel, executors, log — is unchanged, so `IsRunning` stays
`true` and the set of running tasks is that of the first call. -/
theorem start_noop_when_running (s s' : RunnerState τ) (ts : List τ)
    (hrun : s.isRunning = true) (h : RStep s (.start ts) s') :
    s' = s ∧ s'.isRunning = true ∧ s'.live = s.live := by
  cases h with
  | startRunning => exact ⟨rfl, hrun, rfl⟩
  | startIdle _ hr _ =>
      simp only [RunnerState.isRunning] at hrun
      rw [hr] at hrun
      exact nomatch hrun

/-- Witness for C5: a second `Start` on a concrete running state. -/
theorem start_noop_when_running_witness :
    (⟨true, true, [0], [], false, []⟩ : RunnerState Nat) =
      (⟨true, true, [0], [], false, []⟩ : RunnerState Nat) ∧
    (⟨true, true, [(0 : Nat)], [], false, []⟩ : RunnerState Nat).isRunning
      = true := by
  have h := start_noop_when_running
    (⟨true, true, [0], [], false, []⟩ : RunnerState Nat) _ [5] rfl
    (RStep.startRunning _ [5] rfl rfl)
  exact ⟨h.1, h.2.1⟩

/-- C6: `Stop` on an idle runner (no `Stop` join in progress) can always
complete at once — the guard returns without touching `wg.Wait` — and it
changes nothing: flag, channel and executors are untouched. -/
theorem stop_noop_when_idle (s : RunnerState τ)
    (hrun : s.isRunning = false) (hui : s.stopping = false) :
    (∃ s', RStep s .stopNoop s') ∧ (∀ s', RStep s .stopNoop s' → s' = s) := by
  have hr : s.running = false := by
    simpa only [RunnerState.isRunning] using hrun
  refine ⟨⟨s, RStep.stopIdle s hr hui⟩, ?_⟩
  intro s' h
  cases h with
  | stopIdle => rfl

/-- Witness for C6 at the initial idle runner. -/
theorem stop_noop_when_idle_witness :
    (∃ s', RStep (RunnerState.init Nat) REvent.stopNoop s') ∧
    (∀ s', RStep (RunnerState.init Nat) REvent.stopNoop s' →
      s' = RunnerState.init Nat) :=
  stop_noop_when_idle (RunnerState.init Nat) rfl rfl

lemma execHist_no_observe (tr : List ExecEvent) (b : Bool) (h : ExecHist tr b) :
    b = false → ExecEvent.observeStop ∉ tr := by
  induction h with
  | start => intro _; simp
  | initFail => intro _; simp
  | tick tr0 h0 ih =>
      intro _ hc
      rcases List.mem_append.mp hc with hc | hc
      · exact ih rfl hc
      · simp at hc
  | cancel tr0 h0 ih => intro hb; exact nomatch hb

lemma append_singleton_split {α : Type} (x : α) :
    ∀ l pre post : List α, x ∉ l → pre ++ x :: post = l ++ [x] → post = [] := by
  intro l
  induction l with
  | nil =>
      intro pre post hx h
      cases pre with
      | nil => simpa using h
      | cons a pre' =>
          have hl := congrArg List.length h
          simp only [List.length_append, List.length_cons, List.length_nil,
            List.nil_append] at hl
          omega
  | cons a l' ih =>
      intro pre post hx h
      cases pre with
      | nil =>
          simp only [List.nil_append, List.cons_append, List.cons.injEq] at h
          exact absurd (by rw [h.1]; exact List.mem_cons_self _ _) hx
      | cons b pre' =>
          simp only [List.cons_append, List.cons.injEq] at h
          exact ih pre' post (fun hm => hx (List.mem_cons_of_mem _ hm)) h.2

/-- C4: in every event history a task executor can have produced, nothing at
all follows the observation of cancellation — the `select` case for the
closed stop channel is a bare `return`, so in particular no injection for
that task occurs after its executor observes cancellation. -/
theorem executor_exits_on_cancellation (tr pre post : List ExecEvent)
    (b : Bool) (h : ExecHist tr b)
    (hsplit : tr = pre ++ ExecEvent.observeStop :: post) : post = [] := by
  cases h with
  | start => cases pre <;> simp at hsplit
  | initFail => cases pre <;> simp at hsplit
  | tick tr0 h0 =>
      exfalso
      have hno := execHist_no_observe tr0 false h0 rfl
      have hmem : ExecEvent.observeStop ∈ tr0 ++ [ExecEvent.inject] := by
        rw [hsplit]
        exact List.mem_append.mpr (Or.inr (List.mem_cons_self _ _))
      rcases List.mem_append.mp hmem with hc | hc
      · exact hno hc
      · simp at hc
  | cancel tr0 h0 =>
      have hno := execHist_no_observe tr0 false h0 rfl
      exact append_singleton_split ExecEvent.observeStop tr0 pre post hno
        hsplit.symm

/-- Witness for C4: a history with one injection then cancellation. -/
theorem executor_exits_on_cancellation_witness :
    ExecHist [ExecEvent.inject, ExecEvent.observeStop] true ∧
    ([] : List ExecEvent) = [] := by
  have hh : ExecHist [ExecEvent.inject, ExecEvent.observeStop] true :=
    ExecHist.cancel [ExecEvent.inject] (ExecHist.tick [] ExecHist.start)
  exact ⟨hh, executor_exits_on_cancellation _ [ExecEvent.inject] [] true hh rfl⟩

/-- What the macOS start loop makes of one (unfiltered) entry: a timed task
when resolution succeeds, nothing when it fails. -/
def macTaskOf (e : KeyEntry) : Option MacTimedTask :=
  match parseMacInput e.key with
  | .ok t => some { task := t, intervalMS := e.intervalMS }
  | .error _ => none

/-- The error the macOS start loop collects for one entry, if any. -/
def macErrOf (e : KeyEntry) : Option KeyErr :=
  match parseMacInput e.key with
  | .ok _ => none
  | .error err => some err

/-- Windows counterpart of `macTaskOf`. -/
def winTaskOf (e : KeyEntry) : Option WinTimedTask :=
  match parseKeyInput e.key with
  | .ok t => some { task := t, intervalMS := e.intervalMS }
  | .error _ => none

/-- Windows counterpart of `macErrOf`. -/
def winErrOf (e : KeyEntry) : Option KeyErr :=
  match parseKeyInput e.key with
  | .ok _ => none
  | .error err => some err

lemma buildMacTasks_filter (entries : List KeyEntry) :
    buildMacTasks entries =
      buildMacTasks (entries.filter fun e => !macSkipEntry e) := by
  induction entries with
  | nil => rfl
  | cons e rest ih =>
      by_cases hs : macSkipEntry e
      · simp only [buildMacTasks, hs, if_true, List.filter_cons]
        simp [hs, ih]
      · simp only [buildMacTasks, List.filter_cons]
        cases hp : parseMacInput e.key <;> simp [hs, hp, ih, buildMacTasks]

lemma buildMacTasks_spec (entries : List KeyEntry) :
    (buildMacTasks entries).1 =
      (entries.filter fun e => !macSkipEntry e).filterMap macTaskOf ∧
    (buildMacTasks entries).2 =
      (entries.filter fun e => !macSkipEntry e).filterMap macErrOf := by
  induction entries with
  | nil => exact ⟨rfl, rfl⟩
  | cons e rest ih =>
      by_cases hs : macSkipEntry e
      · simpa [buildMacTasks, hs, List.filter_cons] using ih
      · cases hp : parseMacInput e.key with
        | ok t =>
            simp [buildMacTasks, hs, List.filter_cons, List.filterMap_cons,
              macTaskOf, macErrOf, hp, ih.1, ih.2]
        | error err =>
            simp [buildMacTasks, hs, List.filter_cons, List.filterMap_cons,
              macTaskOf, macErrOf, hp, ih.1, ih.2]

lemma winBuildTasks_spec (entries : List KeyEntry) :
    (winBuildTasks entries).1 = entries.filterMap winTaskOf ∧
    (winBuildTasks entries).2 = entries.filterMap winErrOf := by
  induction entries with
  | nil => exact ⟨rfl, rfl⟩
  | cons e rest ih =>
      cases hp : parseKeyInput e.key with
      | ok t =>
          simp [winBuildTasks, List.filterMap_cons, winTaskOf, winErrOf, hp,
            ih.1, ih.2]
      | error err =>
          simp [winBuildTasks, List.filterMap_cons, winTaskOf, winErrOf, hp,
            ih.1, ih.2]

/-- C9: the UI start contract on both platforms. Entries that are disabled,
have a non-positive interval or a blank key are filtered out before task
building; each remaining entry contributes either a task or a collected
error, in order, so per-entry resolution errors do not abort the batch and
every successfully resolved entry still gets a running task; the runner is
not started when no task results, and is started with exactly the built
tasks when at least one entry resolved. -/
theorem ui_start_contract (entries : List KeyEntry) :
    buildMacTasks entries =
      buildMacTasks (entries.filter fun e => !macSkipEntry e) ∧
    (buildMacTasks entries).1 =
      (entries.filter fun e => !macSkipEntry e).filterMap macTaskOf ∧
    (buildMacTasks entries).2 =
      (entries.filter fun e => !macSkipEntry e).filterMap macErrOf ∧
    (∀ e, e ∈ entries → macSkipEntry e = false →
      ∀ t, parseMacInput e.key = .ok t →
        ({ task := t, intervalMS := e.intervalMS } : MacTimedTask) ∈
          (buildMacTasks entries).1) ∧
    ((buildMacTasks entries).1 = [] →
      (macStartClicked false entries).1 = none) ∧
    ((buildMacTasks entries).1 ≠ [] →
      macStartClicked false entries =
        (some (buildMacTasks entries).1, (buildMacTasks entries).2)) ∧
    (winBuildTasks (entries.filter winKeepEntry)).1 =
      (entries.filter winKeepEntry).filterMap winTaskOf ∧
    (winBuildTasks (entries.filter winKeepEntry)).2 =
      (entries.filter winKeepEntry).filterMap winErrOf ∧
    (∀ e, e ∈ entries.filter winKeepEntry →
      ∀ t, parseKeyInput e.key = .ok t →
        ({ task := t, intervalMS := e.intervalMS } : WinTimedTask) ∈
          (winBuildTasks (entries.filter winKeepEntry)).1) ∧
    (entries.filter winKeepEntry = [] →
      (winStartClicked false entries).1 = none) ∧
    ((winBuildTasks (entries.filter winKeepEntry)).1 = [] →
      (winStartClicked false entries).1 = none) ∧
    ((winBuildTasks (entries.filter winKeepEntry)).1 ≠ [] →
      winStartClicked false entries =
        (some (winBuildTasks (entries.filter winKeepEntry)).1,
         (winBuildTasks (entries.filter winKeepEntry)).2)) := by
  have hmac := buildMacTasks_spec entries
  have hwin := winBuildTasks_spec (entries.filter winKeepEntry)
  refine ⟨buildMacTasks_filter entries, hmac.1, hmac.2, ?_, ?_, ?_,
    hwin.1, hwin.2, ?_, ?_, ?_, ?_⟩
  · intro e he hs t hp
    rw [hmac.1]
    exact List.mem_filterMap.mpr
      ⟨e, List.mem_filter.mpr ⟨he, by simp [hs]⟩, by simp [macTaskOf, hp]⟩
  · intro h0
    simp [macStartClicked, h0]
  · intro h0
    simp [macStartClicked, h0]
  · intro e he t hp
    rw [hwin.1]
    exact List.mem_filterMap.mpr ⟨e, he, by simp [winTaskOf, hp]⟩
  · intro h0
    simp [winStartClicked, h0]
  · intro h0
    by_cases hf : entries.filter winKeepEntry = []
    · simp [winStartClicked, hf]
    · simp [winStartClicked, hf, h0]
  · intro h0
    have hf : entries.filter winKeepEntry ≠ [] := by
      intro hc
      rw [hc] at h0
      exact h0 rfl
    simp [winStartClicked, hf, h0]

/-- Witness for C9: one resolvable entry, one unresolvable entry, one
disabled entry. -/
theorem ui_start_contract_witness :
    ({ task := { keyCode := 0, unicodeRune := 'A', useUnicode := true },
       intervalMS := 100 } : MacTimedTask) ∈
      (buildMacTasks
        [⟨"A".data, 100, true⟩, ⟨"CTRL".data, 100, true⟩,
         ⟨"B".data, 50, false⟩]).1 ∧
    (macStartClicked false
        [⟨"A".data, 100, true⟩, ⟨"CTRL".data, 100, true⟩,
         ⟨"B".data, 50, false⟩]).1 =
      some (buildMacTasks
        [⟨"A".data, 100, true⟩, ⟨"CTRL".data, 100, true⟩,
         ⟨"B".data, 50, false⟩]).1 := by
  have h := ui_start_contract
    [⟨"A".data, 100, true⟩, ⟨"CTRL".data, 100, true⟩, ⟨"B".data, 50, false⟩]
  refine ⟨h.2.2.2.1 ⟨"A".data, 100, true⟩ (by simp) (by decide)
    { keyCode := 0, unicodeRune := 'A', useUnicode := true } (by rfl), ?_⟩
  rw [h.2.2.2.2.2.1 (by decide)]

example : parseMacInput "A".data = .ok { unicodeRune := 'A', useUnicode := true } := by rfl
example : parseMacInput " a ".data = .ok { unicodeRune := 'a', useUnicode := true } := by rfl
example : parseMacInput "space".data = .ok { keyCode := 49 } := by rfl
example : parseMacInput "F10".data = .ok { keyCode := 109 } := by rfl
example : parseMacInput "  ".data = .error .emptyKey := by rfl
example : parseMacInput "CTRL".data = .error (.unsupportedKey "CTRL".data) := by rfl
example : parseMacInput "f7".data = .ok { keyCode := 98 } := by rfl
example : parseKeyInput "b".data = .ok { unicodeRune := 'b', useUnicode := true } := by rfl
example : parseKeyInput "Escape".data = .ok { keyCode := some .ESC } := by rfl
example : parseKeyInput "".data = .error .emptyKey := by rfl
example : parseKeyInput "HELLO".data = .error (.unsupportedKey "HELLO".data) := by rfl
